import Mathlib

/-!
# Verification of the cloud-networking control-plane simulator

A shallow embedding of the reconciliation engine
(`src/control-plane/reconciler/reconciler.py`) and the device
configuration generator / zero-touch-provisioning state machine
(`src/control-plane/device/config_generator.py`), together with
theorems settling the specification claims about them.

Modelling conventions:
* Python dictionaries become insertion-ordered association lists
  (`List (String × _)`); dictionary assignment is `dictSet`, which
  replaces an existing binding in place or appends a new one, exactly
  like a Python `dict` (which preserves insertion order).
* Python values stored inside resource records become the `Value`
  inductive (`str`, `int`, or `vnone` for Python `None`); `dict.get`
  with no default becomes `pyGet`, which yields `Value.vnone` for a
  missing key, and Python truthiness of such a value is `pyTruthy`.
* `_state_hash` (Python `hash(frozenset(state.items()))`) is modelled
  as the finite set of key/value pairs itself, i.e. the hash is taken
  to be injective on frozensets.  Accidental 64-bit hash collisions
  are thereby assumed away.
* Fallible operations (docker exec, database access) return
  `Except String _`; a Python `try/except` block that swallows the
  exception becomes a total `match` on the `Except` value.
* The environment (containers, links, iptables output, database rows)
  is passed explicitly, so every function is executable.
-/

namespace ControlPlane

/-- A Python value stored in a resource record: a string, an integer, or
`None`. -/
inductive Value where
  | str : String → Value
  | int : Int → Value
  | vnone : Value
deriving DecidableEq, Repr

/-- A resource record: a Python dict from string keys to values, in
insertion order. -/
abbrev Record := List (String × Value)

/-- Python `f"{v}"` string formatting of a value. -/
def Value.pyStr : Value → String
  | .str s => s
  | .int n => toString n
  | .vnone => "None"

/-- Python truthiness of a value (used for `if not vrf_name`). -/
def Value.pyTruthy : Value → Bool
  | .str s => s ≠ ""
  | .int n => n ≠ 0
  | .vnone => false

/-- `m[k]` presence lookup in a Python dict modelled as an association
list: the first binding for `k`, if any. -/
def pyLookup (m : List (String × α)) (k : String) : Option α :=
  (m.find? (fun p => p.1 = k)).map (fun p => p.2)

/-- `dict.get(k)`: the bound value, or Python `None` when absent. -/
def pyGet (r : Record) (k : String) : Value :=
  (pyLookup r k).getD Value.vnone

/-- `k in m` for a Python dict with string keys. -/
def pyMem (m : List (String × α)) (k : String) : Bool :=
  (pyLookup m k).isSome

/-- Membership test `v in m` where `v` is an arbitrary Python value and
`m` a dict with string keys: only a string can match a key. -/
def valueKeyMem (v : Value) (m : List (String × α)) : Bool :=
  match v with
  | .str s => pyMem m s
  | _ => false

/-- Python `dict` assignment `m[k] = v`: replaces the existing binding
in place, or appends a new one (Python dicts preserve insertion
order). -/
def dictSet (m : List (String × α)) (k : String) (v : α) : List (String × α) :=
  if pyMem m k then m.map (fun p => if p.1 = k then (k, v) else p)
  else m ++ [(k, v)]

/-- A desired- or actual-state snapshot: the dict
`{"vpcs": {...}, "routes": {...}, "vxlan_tunnels": {...}}`. -/
structure NetState where
  vpcs : List (String × Record)
  routes : List (String × Record)
  vxlan_tunnels : List (String × Record)
deriving DecidableEq, Repr

/-- The empty snapshot `{"vpcs": {}, "routes": {}, "vxlan_tunnels": {}}`. -/
def NetState.empty : NetState := ⟨[], [], []⟩

/-- `ResourceType` enum of the reconciler. -/
inductive ResourceType where
  | VPC | SUBNET | ROUTE | SECURITY_GROUP | NAT_GATEWAY | VXLAN_TUNNEL | VRF
deriving DecidableEq, Repr

/-- `ActionType` enum of the reconciler. -/
inductive ActionType where
  | CREATE | UPDATE | DELETE | VERIFY
deriving DecidableEq, Repr

/-- `ReconciliationAction` dataclass.  `resource_id` is a `Value`
because the VRF planning branch stores whatever Python value the
`"vrf"` attribute holds. -/
structure ReconciliationAction where
  action_type : ActionType
  resource_type : ResourceType
  resource_id : Value
  target_state : Record
  current_state : Option Record := none
  priority : Nat := 100
  retries : Nat := 0
  max_retries : Nat := 3
deriving DecidableEq, Repr

/-- `_state_hash`: Python `hash(frozenset(state.items()))`, modelled as
the frozenset itself (hash assumed injective; see module docstring). -/
def stateHash (r : Record) : Finset (String × Value) := r.toFinset

/-- The `# Check VPCs` loop of `_compute_diff`: CREATE a missing VPC,
UPDATE one whose state-hash differs. -/
def diffVpcBlock (desired actual : NetState) : List ReconciliationAction :=
  desired.vpcs.filterMap fun p =>
    match pyLookup actual.vpcs p.1 with
    | none =>
        some { action_type := .CREATE, resource_type := .VPC,
               resource_id := .str p.1, target_state := p.2, priority := 10 }
    | some vpc_actual =>
        if stateHash p.2 ≠ stateHash vpc_actual then
          some { action_type := .UPDATE, resource_type := .VPC,
                 resource_id := .str p.1, target_state := p.2,
                 current_state := some vpc_actual, priority := 20 }
        else none

/-- The `# Check VXLAN Tunnels` loop of `_compute_diff`. -/
def diffVxlanBlock (desired actual : NetState) : List ReconciliationAction :=
  desired.vxlan_tunnels.filterMap fun p =>
    match pyLookup actual.vxlan_tunnels p.1 with
    | none =>
        some { action_type := .CREATE, resource_type := .VXLAN_TUNNEL,
               resource_id := .str p.1, target_state := p.2, priority := 30 }
    | some _ => none

/-- The `# Check VRFs (derived from VPCs)` loop of `_compute_diff`. -/
def diffVrfBlock (desired actual : NetState) : List ReconciliationAction :=
  desired.vpcs.filterMap fun p =>
    let vrf_name := pyGet p.2 "vrf"
    if ¬ vrf_name.pyTruthy then none
    else if ¬ pyMem actual.vpcs p.1 ∧ ¬ valueKeyMem vrf_name actual.vpcs then
      some { action_type := .CREATE, resource_type := .VRF,
             resource_id := vrf_name, target_state := p.2, priority := 25 }
    else none

/-- The `# Check for VPCs that need deletion` loop of `_compute_diff`. -/
def diffDeleteBlock (desired actual : NetState) : List ReconciliationAction :=
  actual.vpcs.filterMap fun p =>
    if ¬ pyMem desired.vpcs p.1 ∧
        Value.str p.1 ∉ desired.vpcs.map (fun q => pyGet q.2 "vrf") then
      some { action_type := .DELETE, resource_type := .VPC,
             resource_id := .str p.1, target_state := [],
             current_state := some p.2, priority := 200 }
    else none

/-- The `# Similar logic for routes` loop of `_compute_diff`. -/
def diffRouteBlock (desired actual : NetState) : List ReconciliationAction :=
  desired.routes.filterMap fun p =>
    match pyLookup actual.routes p.1 with
    | none =>
        some { action_type := .CREATE, resource_type := .ROUTE,
               resource_id := .str p.1, target_state := p.2, priority := 50 }
    | some _ => none

/-- `_compute_diff`: the five planning loops of the reconciler, in
source order (VPC create/update, VXLAN tunnel create, VRF create, VPC
delete, route create). -/
def computeDiff (desired actual : NetState) : List ReconciliationAction :=
  diffVpcBlock desired actual
    ++ diffVxlanBlock desired actual
    ++ diffVrfBlock desired actual
    ++ diffDeleteBlock desired actual
    ++ diffRouteBlock desired actual

/-- Insert an action into a priority-sorted list, after all entries of
smaller or equal priority (so the overall sort is stable, like
Python's `sorted`). -/
def insertPrio (a : ReconciliationAction) :
    List ReconciliationAction → List ReconciliationAction
  | [] => [a]
  | b :: bs =>
      if b.priority ≤ a.priority then b :: insertPrio a bs else a :: b :: bs

/-- `sorted(actions, key=lambda a: a.priority)`: a stable ascending
sort by priority. -/
def sortByPriority (l : List ReconciliationAction) : List ReconciliationAction :=
  l.foldl (fun acc a => insertPrio a acc) []

/-- A row of the `vpcs` table as the reconciler reads it
(`name`/`cidr`/`vni`/`vrf` are non-nullable columns, `status` has a
default). -/
structure VPCRow where
  id : String
  name : String
  cidr : String
  vni : Int
  vrf : String
  status : String
deriving DecidableEq, Repr

/-- A row of the `routes` table as the reconciler reads it. -/
structure RouteRow where
  id : String
  vpc_id : String
  destination : String
  next_hop : String
  next_hop_type : String
deriving DecidableEq, Repr

/-- The VPC phase of `_fetch_desired_state`: build the VPC records and
derive one VXLAN tunnel per VPC VNI. -/
def fetchVpcsPhase (vpcRows : List VPCRow) : NetState :=
  vpcRows.foldl
    (fun (st : NetState) vpc =>
      { st with
        vpcs := (dictSet st.vpcs vpc.id
          [("id", .str vpc.id), ("name", .str vpc.name),
           ("cidr", .str vpc.cidr), ("vni", .int vpc.vni),
           ("vrf", .str vpc.vrf), ("status", .str vpc.status)]),
        vxlan_tunnels := (dictSet st.vxlan_tunnels ("vni-" ++ toString vpc.vni)
          [("vni", .int vpc.vni), ("vpc_id", .str vpc.id)]) })
    NetState.empty

/-- `_fetch_desired_state`, parameterised by the database contents:
the VPC phase above followed by the route records. -/
def fetchDesiredState (vpcRows : List VPCRow) (routeRows : List RouteRow) :
    NetState :=
  routeRows.foldl
    (fun (st : NetState) route =>
      { st with
        routes := (dictSet st.routes route.id
          [("id", .str route.id), ("vpc_id", .str route.vpc_id),
           ("destination", .str route.destination),
           ("next_hop", .str route.next_hop),
           ("next_hop_type", .str route.next_hop_type)]) })
    (fetchVpcsPhase vpcRows)

/-- One parsed entry of `ip -d -j link show` as `_discover_actual_state`
consumes it: `ifname` (defaulted to `""`), `linkinfo.info_kind`, and
`linkinfo.info_data.id` for VXLAN devices. -/
structure LinkInfo where
  ifname : String
  info_kind : Option String
  vni : Option Int
deriving DecidableEq, Repr

/-- The environment `_discover_actual_state` observes on the
representative node `leaf-1`. -/
structure DiscoveryEnv where
  leaf1Exists : Bool
  /-- whether `ip -d -j link show` exited with code 0 -/
  linkQueryOk : Bool
  links : List LinkInfo
  /-- decoded output of `iptables -S FORWARD` -/
  iptablesOutput : String

/-- Whether `needle` is a prefix of `hay` (on character lists). -/
def charsIsPrefix : List Char → List Char → Bool
  | [], _ => true
  | _ :: _, [] => false
  | a :: as, b :: bs => a = b && charsIsPrefix as bs

/-- Whether `needle` occurs inside `hay` (on character lists). -/
def charsInfix (needle : List Char) : List Char → Bool
  | [] => charsIsPrefix needle []
  | c :: t => charsIsPrefix needle (c :: t) || charsInfix needle t

/-- Substring containment, Python `needle in haystack`. -/
def strContains (hay needle : String) : Bool :=
  charsInfix needle.data hay.data

/-- The link-classification phase of `_discover_actual_state`:
classify `ip -d -j link show` entries into VXLAN tunnels and VRF
devices (run only when the query exited 0). -/
def discoverLinksBase (env : DiscoveryEnv) : NetState :=
  if env.linkQueryOk then
    env.links.foldl
      (fun (st : NetState) link =>
        if link.info_kind = some "vxlan" then
          match link.vni with
          | some vni =>
              if vni ≠ 0 then
                { st with vxlan_tunnels :=
                    (dictSet st.vxlan_tunnels ("vni-" ++ toString vni)
                      [("vni", .int vni), ("status", .str "up")]) }
              else st
          | none => st
        else if link.info_kind = some "vrf" then
          { st with vpcs :=
              (dictSet st.vpcs link.ifname
                [("id", .str link.ifname), ("status", .str "up")]) }
        else st)
      NetState.empty
  else NetState.empty

/-- `_discover_actual_state`: the link classification above, then the
iptables isolation rules (or a discovered VRF device) mapped back to
the desired VPCs.  The VPC dict is threaded through the final loop
because the source mutates `actual["vpcs"]` while iterating over the
desired VPCs. -/
def discoverActualState (env : DiscoveryEnv) (desired : NetState) : NetState :=
  if ¬ env.leaf1Exists then NetState.empty
  else
    desired.vpcs.foldl
      (fun (st : NetState) p =>
        if strContains env.iptablesOutput
              ("-A FORWARD -d " ++ (pyGet p.2 "cidr").pyStr ++ " -j REJECT")
            || strContains env.iptablesOutput
                ("-A FORWARD -s " ++ (pyGet p.2 "cidr").pyStr)
            || valueKeyMem (pyGet p.2 "vrf") st.vpcs then
          { st with vpcs := (dictSet st.vpcs p.1
              [("id", .str p.1), ("status", .str "available")]) }
        else st)
      (discoverLinksBase env)

/-- `ReconciliationResult`, extended with `executed_log`: the sequence
of actions on which `_execute_action` was invoked (the source prints
an `Executing: ...` line at the top of every such call, so this log is
an observable of the real program, not an extra piece of state). -/
structure CycleResult where
  success : Bool := true
  actions_taken : List ReconciliationAction := []
  errors : List String := []
  executed_log : List ReconciliationAction := []
deriving DecidableEq, Repr

/-- One iteration of the planned-action loop of `reconcile` (step 4):
execute the action; on failure bump `retries` and either requeue it to
the pending list or record a permanent error and clear `success`. -/
def execPlanned (ex : ReconciliationAction → Except String Unit)
    (st : List ReconciliationAction × CycleResult)
    (action : ReconciliationAction) :
    List ReconciliationAction × CycleResult :=
  let pending := st.1
  let result := { st.2 with executed_log := st.2.executed_log ++ [action] }
  match ex action with
  | .ok _ =>
      (pending, { result with actions_taken := result.actions_taken ++ [action] })
  | .error e =>
      let action := { action with retries := action.retries + 1 }
      if action.retries < action.max_retries then
        (pending ++ [action],
         { result with errors := result.errors ++ ["Action failed, will retry: " ++ e] })
      else
        (pending,
         { result with
             errors := result.errors ++ ["Action failed permanently: " ++ e],
             success := false })

/-- `_process_pending_actions`: walk the pending list, re-executing the
actions still under the retry bound; failures bump `retries` and go to
the `remaining` list (silently — no error entry), successes go to
`actions_taken`; actions over the bound are dropped. -/
def processPending (ex : ReconciliationAction → Except String Unit)
    (pending : List ReconciliationAction) (result : CycleResult) :
    List ReconciliationAction × CycleResult :=
  pending.foldl
    (fun (st : List ReconciliationAction × CycleResult) action =>
      if action.retries ≤ action.max_retries then
        let r := { st.2 with executed_log := st.2.executed_log ++ [action] }
        match ex action with
        | .ok _ =>
            (st.1, { r with actions_taken := r.actions_taken ++ [action] })
        | .error _ =>
            (st.1 ++ [{ action with retries := action.retries + 1 }], r)
      else st)
    ([], result)

/-- Steps 4 and 5 of one `reconcile` cycle, parameterised by the action
executor `ex` and the engine's pending list carried over from earlier
cycles.  Returns the new pending list and the cycle result.  Planned
actions execute sorted ascending by priority; the pending list is then
reprocessed (including actions requeued moments earlier in this very
cycle, since the source appends to `self.pending_actions` while the
planned loop runs). -/
def reconcileCycle (ex : ReconciliationAction → Except String Unit)
    (planned pending : List ReconciliationAction) :
    List ReconciliationAction × CycleResult :=
  let st := (sortByPriority planned).foldl (execPlanned ex) (pending, {})
  processPending ex st.1 st.2

/-! ## Action execution (`_execute_action` and the `_apply_*` helpers) -/

/-- `dict.get(k, default)`. -/
def pyGetD (r : Record) (k : String) (d : Value) : Value :=
  (pyLookup r k).getD d

/-- Result of `container.exec_run`. -/
structure ExecResult where
  exit_code : Int
  output : String

/-- The environment the executor acts against: container existence
(`_get_container` already swallows its own exceptions and returns
`None`, hence a total `Bool`), `exec_run` (which may raise), and the
database read of `_fetch_desired_state` (which may raise). -/
structure Env where
  containerExists : String → Bool
  execRun : String → String → Except String ExecResult
  fetchDesired : Except String NetState

/-- `self.switches` of the engine. -/
def switches : List String := ["leaf-1", "leaf-2", "leaf-3"]

/-- A `try: ... except Exception: print(...)` block: whatever the body
did, the exception is swallowed and control continues. -/
def catchAll (_body : Except String Unit) : Except String Unit :=
  .ok ()

/-- `_run_command_on_switch`: raises when the container is missing or
the command exits non-zero. -/
def runCommandOnSwitch (env : Env) (switch command : String) :
    Except String String :=
  if env.containerExists switch then
    match env.execRun switch command with
    | .error e => .error e
    | .ok result =>
        if result.exit_code ≠ 0 then
          .error ("Command failed: " ++ command ++ " -> " ++ result.output)
        else .ok result.output
  else .error ("Container " ++ switch ++ " not found")

/-- The body of the per-switch `try` block of `_apply_vpc_action`:
skip a missing container, re-fetch the desired state, and install the
pairwise isolation rules (raw `exec_run` calls whose results are not
checked, but whose exceptions propagate to the enclosing handler). -/
def vpcSwitchBody (env : Env) (action : ReconciliationAction)
    (cidr : Value) (switch : String) : Except String Unit :=
  if env.containerExists switch then
    match env.fetchDesired with
    | .error e => .error e
    | .ok desired =>
        desired.vpcs.foldl
          (fun (acc : Except String Unit) q =>
            acc >>= fun _ =>
              if Value.str q.1 = action.resource_id then .ok ()
              else
                let other_cidr := pyGet q.2 "cidr"
                (env.execRun switch
                    ("iptables -I FORWARD -s " ++ cidr.pyStr ++ " -d "
                      ++ other_cidr.pyStr ++ " -j REJECT")).bind fun _ =>
                (env.execRun switch
                    ("iptables -I FORWARD -d " ++ cidr.pyStr ++ " -s "
                      ++ other_cidr.pyStr ++ " -j REJECT")).map fun _ => ())
          (.ok ())
  else .ok ()

/-- `_apply_vpc_action`: on CREATE, the whole per-switch body sits in
its own `try/except`; DELETE only prints. -/
def applyVpcAction (env : Env) (action : ReconciliationAction) :
    Except String Unit :=
  if action.action_type = .CREATE then
    let cidr := pyGetD action.target_state "cidr" (.str "")
    switches.foldl
      (fun acc switch => acc >>= fun _ =>
        catchAll (vpcSwitchBody env action cidr switch))
      (.ok ())
  else .ok ()

/-- `_apply_route_action`: only prints; no fallible operation. -/
def applyRouteAction (_env : Env) (_action : ReconciliationAction) :
    Except String Unit :=
  .ok ()

/-- `_apply_vxlan_action`: on CREATE, two `_run_command_on_switch`
calls per switch, each switch wrapped in its own `try/except`. -/
def applyVxlanAction (env : Env) (action : ReconciliationAction) :
    Except String Unit :=
  if action.action_type = .CREATE then
    let vni := pyGet action.target_state "vni"
    let dev_name := "vxlan" ++ vni.pyStr
    switches.foldl
      (fun acc switch => acc >>= fun _ =>
        catchAll
          ((runCommandOnSwitch env switch
              ("ip link add " ++ dev_name ++ " type vxlan id " ++ vni.pyStr
                ++ " dstport 4789")).bind fun _ =>
           (runCommandOnSwitch env switch
              ("ip link set " ++ dev_name ++ " up")).map fun _ => ()))
      (.ok ())
  else .ok ()

/-- `_apply_vrf_action`: on CREATE, two `_run_command_on_switch` calls
per switch, each switch wrapped in its own `try/except` (which merely
distinguishes the "Not supported" message when printing). -/
def applyVrfAction (env : Env) (action : ReconciliationAction) :
    Except String Unit :=
  if action.action_type = .CREATE then
    let vrf_name := action.resource_id.pyStr
    let table_id := pyGetD action.target_state "vni" (.int 100)
    switches.foldl
      (fun acc switch => acc >>= fun _ =>
        catchAll
          ((runCommandOnSwitch env switch
              ("ip link add " ++ vrf_name ++ " type vrf table "
                ++ table_id.pyStr)).bind fun _ =>
           (runCommandOnSwitch env switch
              ("ip link set " ++ vrf_name ++ " up")).map fun _ => ()))
      (.ok ())
  else .ok ()

/-- `_execute_action`: dispatch on the resource type (unknown types
fall through the `elif` chain and do nothing). -/
def executeAction (env : Env) (action : ReconciliationAction) :
    Except String Unit :=
  match action.resource_type with
  | .VPC => applyVpcAction env action
  | .ROUTE => applyRouteAction env action
  | .VXLAN_TUNNEL => applyVxlanAction env action
  | .VRF => applyVrfAction env action
  | _ => .ok ()

/-! ## Device configuration generator (`config_generator.py`) -/

/-- `VRFConfig` dataclass (r/t lists default to `[]` via
`vrf.get("rt_import", [])` at every construction site). -/
structure VRFConfig where
  name : String
  vni : Int
  rd : String
  rt_import : List String := []
  rt_export : List String := []
deriving DecidableEq, Repr

/-- A BGP neighbor dict `{ip, remote_asn, peer_group?}`. -/
structure Neighbor where
  ip : String
  remote_asn : Int
  peer_group : Option String := none
deriving DecidableEq, Repr

/-- A static-route dict `{prefix, next_hop, vrf?}` (the source's
`prefix` key is called `pfx` here). -/
structure StaticRoute where
  pfx : String
  next_hop : String
  vrf : Option String := none
deriving DecidableEq, Repr

/-- `SwitchConfig` dataclass. -/
structure SwitchConfig where
  hostname : String
  router_id : String
  asn : Int
  config_text : String
deriving DecidableEq, Repr

/-- Jinja2 truthiness of an optional string (`{% if x %}`): present and
non-empty. -/
def optTruthy : Option String → Bool
  | some s => s ≠ ""
  | none => false

/-- One iteration of the `{% for vrf in vrfs %}` header block of
`FRR_BASE_TEMPLATE`. -/
def frrVrfHeaderBlock (v : VRFConfig) : String :=
  "\nvrf " ++ v.name ++ "\n vni " ++ toString v.vni ++ "\nexit-vrf\n!\n"

/-- One iteration of the `{% for neighbor in neighbors %}` declaration
block. -/
def frrNeighborDecl (n : Neighbor) : String :=
  "\n neighbor " ++ n.ip ++ " remote-as " ++ toString n.remote_asn ++ "\n"
  ++ (if optTruthy n.peer_group then
        "\n neighbor " ++ n.ip ++ " peer-group " ++ (n.peer_group.getD "") ++ "\n"
      else "")
  ++ "\n"

/-- One iteration of a `neighbor ... activate` loop. -/
def frrNeighborActivate (n : Neighbor) : String :=
  "\n  neighbor " ++ n.ip ++ " activate\n"

/-- One iteration of the per-VRF `router bgp ... vrf ...` block. -/
def frrVrfBgpBlock (router_id : String) (asn : Int) (v : VRFConfig) : String :=
  "\nrouter bgp " ++ toString asn ++ " vrf " ++ v.name
  ++ "\n bgp router-id " ++ router_id
  ++ "\n !\n address-family ipv4 unicast\n  redistribute connected\n  redistribute static\n exit-address-family\n !\n address-family l2vpn evpn\n  advertise ipv4 unicast\n  rd "
  ++ v.rd ++ "\n"
  ++ String.join (v.rt_import.map fun rt => "\n  route-target import " ++ rt ++ "\n")
  ++ "\n"
  ++ String.join (v.rt_export.map fun rt => "\n  route-target export " ++ rt ++ "\n")
  ++ "\n exit-address-family\nexit\n!\n"

/-- One iteration of the `{% for static_route in static_routes %}`
block. -/
def frrStaticRouteBlock (r : StaticRoute) : String :=
  "\nip route " ++ r.pfx ++ " " ++ r.next_hop
  ++ (if optTruthy r.vrf then " vrf " ++ (r.vrf.getD "") else "")
  ++ "\n\n"

/-- Rendering of `FRR_BASE_TEMPLATE` under Jinja2 defaults: `{% %}`
tags render to nothing and all surrounding literal text, including
newlines, is kept (`trim_blocks`/`lstrip_blocks` are off). -/
def frrRender (hostname router_id : String) (asn : Int)
    (neighbors : List Neighbor) (vrfs : List VRFConfig)
    (static_routes : List StaticRoute) : String :=
  "\n!\nfrr version 8.5\nfrr defaults datacenter\nhostname " ++ hostname
  ++ "\nlog syslog informational\nservice integrated-vtysh-config\n!\n"
  ++ String.join (vrfs.map frrVrfHeaderBlock)
  ++ "\nrouter bgp " ++ toString asn ++ "\n bgp router-id " ++ router_id
  ++ "\n bgp bestpath as-path multipath-relax\n no bgp ebgp-requires-policy\n no bgp default ipv4-unicast\n !\n"
  ++ String.join (neighbors.map frrNeighborDecl)
  ++ "\n !\n address-family ipv4 unicast\n  redistribute connected\n"
  ++ String.join (neighbors.map frrNeighborActivate)
  ++ "\n exit-address-family\n !\n address-family l2vpn evpn\n"
  ++ String.join (neighbors.map frrNeighborActivate)
  ++ "\n  advertise-all-vni\n exit-address-family\nexit\n!\n"
  ++ String.join (vrfs.map (frrVrfBgpBlock router_id asn))
  ++ "\n"
  ++ String.join (static_routes.map frrStaticRouteBlock)
  ++ "\n"

/-- `ConfigGenerator.generate_frr_config`. -/
def generate_frr_config (hostname router_id : String) (asn : Int)
    (neighbors : List Neighbor) (vrfs : List VRFConfig)
    (static_routes : List StaticRoute := []) : SwitchConfig :=
  { hostname := hostname, router_id := router_id, asn := asn,
    config_text := frrRender hostname router_id asn neighbors vrfs static_routes }

/-- The whitespace class of Python `str.strip()` (ASCII part; exotic
Unicode spaces are not modelled). -/
def isStripChar (c : Char) : Bool :=
  c = ' ' || c = '\t' || c = '\n' || c = '\r' || c = '\x0b' || c = '\x0c'

/-- Python `s.strip()`. -/
def pyStrip (s : String) : String :=
  String.mk (((s.data.dropWhile isStripChar).reverse.dropWhile isStripChar).reverse)

/-- Helper for `pySplitLines`: accumulate the current line (reversed). -/
def splitLinesAux : List Char → List Char → List String
  | [], acc => [String.mk acc.reverse]
  | c :: cs, acc =>
      if c = '\n' then String.mk acc.reverse :: splitLinesAux cs []
      else splitLinesAux cs (c :: acc)

/-- Python `s.split("\n")` (always at least one piece; a trailing
newline yields a trailing empty piece). -/
def pySplitLines (s : String) : List String :=
  splitLinesAux s.data []

/-- Python `s.startswith("!")`. -/
def startsBang (s : String) : Bool :=
  match s.data with
  | c :: _ => c = '!'
  | [] => false

/-- First-occurrence deduplication: the model of building a Python
`set` from a list (membership is what matters; the source iterates the
set in an unspecified order, for which this model fixes
first-occurrence order). -/
def dedupFirst : List String → List String
  | [] => []
  | x :: xs => x :: (dedupFirst xs).filter (fun y => y ≠ x)

/-- `set(text.strip().split("\n"))` of `diff_configs`. -/
def lineSet (s : String) : List String :=
  dedupFirst (pySplitLines (pyStrip s))

/-- The command a raw line contributes after per-line `strip()`: skipped
when blank or a `!` comment. -/
def lineCommand (neg : Bool) (l : String) : Option String :=
  let t := pyStrip l
  if t ≠ "" ∧ ¬ startsBang t then
    some (if neg then "no " ++ t else t)
  else none

/-- `ConfigGenerator.diff_configs`: set difference of whole lines;
lines only in `current` become `no <line>` commands, lines only in
`desired` become additive commands. -/
def diff_configs (current desired : String) : List String :=
  let current_lines := lineSet current
  let desired_lines := lineSet desired
  let to_remove := current_lines.filter (fun l => ¬ l ∈ desired_lines)
  let to_add := desired_lines.filter (fun l => ¬ l ∈ current_lines)
  to_remove.filterMap (lineCommand true) ++ to_add.filterMap (lineCommand false)

/-! ## Zero-touch-provisioning state machine (`DeviceOnboarding`) -/

/-- An inventory entry; keys a dict entry acquires only later in the
device's life are `Option`s. -/
structure Device where
  mac_address : String
  ip_address : String
  status : String
  model : String
  serial : String
  role : Option String := none
  rack_id : Option String := none
  position : Option Int := none
  hostname : Option String := none
  config : Option String := none
deriving DecidableEq, Repr

/-- The onboarding inventory, keyed by MAC address. -/
abbrev Inventory := List (String × Device)

/-- A switch entry of a provisioning topology (`router_id`/`asn`
mandatory, the rest defaulted, mirroring the `.get` calls). -/
structure SwitchData where
  router_id : String
  asn : Int
  neighbors : List Neighbor := []
  vrfs : List VRFConfig := []
deriving DecidableEq, Repr

/-- A provisioning topology: its `switches` table. -/
structure Topology where
  switches : List (String × SwitchData)
deriving DecidableEq, Repr

/-- `DeviceOnboarding.discover_device`: unconditional upsert of a fresh
`discovered` entry (an existing entry for the MAC is overwritten
wholesale). -/
def discover_device (inv : Inventory) (mac ip : String) : Device × Inventory :=
  let device : Device :=
    { mac_address := mac, ip_address := ip, status := "discovered",
      model := "generic-switch",
      serial := "SN-" ++ String.mk (mac.data.filter (fun c => c ≠ ':')) }
  (device, dictSet inv mac device)

/-- `DeviceOnboarding.assign_role`: fails if the MAC is unknown;
otherwise sets role/rack/position, derives the hostname and moves the
entry to `assigned` (no precondition on the current status). -/
def assign_role (inv : Inventory) (mac role rack_id : String)
    (position : Int) : Except String (Device × Inventory) :=
  match pyLookup inv mac with
  | none => .error ("Device " ++ mac ++ " not in inventory")
  | some device =>
      let device := { device with
        role := some role, rack_id := some rack_id,
        position := some position, status := "assigned",
        hostname := some (role ++ toString position) }
      .ok (device, dictSet inv mac device)

/-- `DeviceOnboarding.provision_device`: fails if the MAC is unknown or
the status is not `assigned` or the hostname has no topology entry;
otherwise renders the switch configuration, stores it on the entry and
moves it to `provisioned`.  (The `device["hostname"]` access would be a
`KeyError` on an `assigned` entry without a hostname; no entry produced
by these operations is in that state.) -/
def provision_device (inv : Inventory) (mac : String) (topology : Topology) :
    Except String (SwitchConfig × Inventory) :=
  match pyLookup inv mac with
  | none => .error ("Device " ++ mac ++ " not in inventory")
  | some device =>
      if device.status ≠ "assigned" then
        .error ("Device " ++ mac ++ " not yet assigned a role")
      else
        match device.hostname with
        | none => .error "KeyError: hostname"
        | some hostname =>
            match pyLookup topology.switches hostname with
            | none => .error ("No topology data for " ++ hostname)
            | some sd =>
                let config := generate_frr_config hostname sd.router_id sd.asn
                  sd.neighbors sd.vrfs
                let device := { device with
                  status := "provisioned",
                  config := some config.config_text }
                .ok (config, dictSet inv mac device)

/-! ## Derived definitions used by the theorems -/

/-- The priority table of the planner: exactly which
(action kind, resource kind, priority) triples `_compute_diff` can
emit. -/
def PriorityTable (x : ReconciliationAction) : Prop :=
  (x.action_type = .CREATE ∧ x.resource_type = .VPC ∧ x.priority = 10) ∨
  (x.action_type = .UPDATE ∧ x.resource_type = .VPC ∧ x.priority = 20) ∨
  (x.action_type = .CREATE ∧ x.resource_type = .VRF ∧ x.priority = 25) ∨
  (x.action_type = .CREATE ∧ x.resource_type = .VXLAN_TUNNEL ∧ x.priority = 30) ∨
  (x.action_type = .CREATE ∧ x.resource_type = .ROUTE ∧ x.priority = 50) ∨
  (x.action_type = .DELETE ∧ x.resource_type = .VPC ∧ x.priority = 200)

/-- The convergence stage an action belongs to, in the order the spec
names them (lower stage = must run earlier). -/
def kindRank (x : ReconciliationAction) : Nat :=
  match x.action_type, x.resource_type with
  | .CREATE, .VPC => 0
  | .UPDATE, .VPC => 1
  | .CREATE, .VRF => 2
  | .CREATE, .VXLAN_TUNNEL => 3
  | .CREATE, .ROUTE => 4
  | .DELETE, _ => 5
  | _, _ => 6

/-- What the planned-action loop does to a failing action: requeued
with a bumped retry counter when still under the bound, dropped (after
the permanent-error record) otherwise. -/
def plannedPendOne (ex : ReconciliationAction → Except String Unit)
    (a : ReconciliationAction) : Option ReconciliationAction :=
  match ex a with
  | .ok _ => none
  | .error _ =>
      if a.retries + 1 < a.max_retries then some { a with retries := a.retries + 1 }
      else none

/-- The error entry the planned-action loop records for an action. -/
def plannedErrOne (ex : ReconciliationAction → Except String Unit)
    (a : ReconciliationAction) : Option String :=
  match ex a with
  | .ok _ => none
  | .error e =>
      some (if a.retries + 1 < a.max_retries then "Action failed, will retry: " ++ e
            else "Action failed permanently: " ++ e)

/-- Whether the planned-action loop keeps the cycle's `success` flag
for this action. -/
def plannedOkOne (ex : ReconciliationAction → Except String Unit)
    (a : ReconciliationAction) : Bool :=
  match ex a with
  | .ok _ => true
  | .error _ => decide (a.retries + 1 < a.max_retries)

/-- Whether an executor succeeds on an action. -/
def execOk (ex : ReconciliationAction → Except String Unit)
    (a : ReconciliationAction) : Bool :=
  match ex a with
  | .ok _ => true
  | .error _ => false

/-- What `_process_pending_actions` leaves queued for an action. -/
def pendRemainOne (ex : ReconciliationAction → Except String Unit)
    (a : ReconciliationAction) : Option ReconciliationAction :=
  if a.retries ≤ a.max_retries then
    match ex a with
    | .ok _ => none
    | .error _ => some { a with retries := a.retries + 1 }
  else none

/-- Whether `_process_pending_actions` attempts an action at all. -/
def pendAttemptP (a : ReconciliationAction) : Bool :=
  decide (a.retries ≤ a.max_retries)

/-- Whether `_process_pending_actions` completes an action. -/
def pendTakenP (ex : ReconciliationAction → Except String Unit)
    (a : ReconciliationAction) : Bool :=
  pendAttemptP a && execOk ex a

/-- Rank of an onboarding status along the intended progression
`discovered → assigned → provisioned` (unknown strings rank lowest). -/
def statusRank (s : String) : Nat :=
  if s = "assigned" then 1 else if s = "provisioned" then 2 else 0

/-- Predicate: a CREATE action of resource type VPC for the id `k`. -/
def isCreateVpcFor (k : String) (x : ReconciliationAction) : Bool :=
  decide (x.action_type = .CREATE ∧ x.resource_type = .VPC ∧
    x.resource_id = .str k)

/-- Predicate: an action of resource type VPC whose resource id is `k`. -/
def isVpcActionFor (k : String) (x : ReconciliationAction) : Bool :=
  decide (x.resource_type = .VPC ∧ x.resource_id = .str k)

/-- Predicate: any action whose resource id is `k`. -/
def isActionFor (k : String) (x : ReconciliationAction) : Bool :=
  decide (x.resource_id = .str k)

/-! ## Concrete fixtures for witnesses and counterexamples -/

/-- The database row of the spec's scenario VPC `vpc-a`. -/
def vpcARow : VPCRow :=
  { id := "vpc-a", name := "vpc-a", cidr := "10.1.0.0/16", vni := 1003,
    vrf := "VRF-vpc-a", status := "available" }

/-- The desired state of the spec's scenario: one VPC and its derived
VXLAN tunnel, no routes. -/
def desiredA : NetState := fetchDesiredState [vpcARow] []

/-- An executor on which every action raises. -/
def alwaysFail : ReconciliationAction → Except String Unit :=
  fun _ => .error "boom"

/-- A concrete fresh action (default `retries = 0`, `max_retries = 3`). -/
def actA : ReconciliationAction :=
  { action_type := .CREATE, resource_type := .VPC, resource_id := .str "vpc-a",
    target_state := [], priority := 10 }

/-- An environment in which every container exists and every command
and database read succeeds. -/
def envOk : Env :=
  { containerExists := fun _ => true,
    execRun := fun _ _ => .ok { exit_code := 0, output := "" },
    fetchDesired := .ok NetState.empty }

/-- A discovered-then-assigned single-device inventory. -/
def invAssigned : Inventory :=
  match assign_role (discover_device [] "aa:bb" "10.0.0.9").2
      "aa:bb" "leaf" "r1" 1 with
  | .ok p => p.2
  | .error _ => []

/-- A one-switch provisioning topology matching the derived hostname
`leaf1`. -/
def topoT : Topology :=
  ⟨[("leaf1", { router_id := "10.0.0.1", asn := 65001 })]⟩

/-- The configuration a successful provisioning of the fixture returns. -/
def cfgT : SwitchConfig :=
  match provision_device invAssigned "aa:bb" topoT with
  | .ok p => p.1
  | .error _ => { hostname := "", router_id := "", asn := 0, config_text := "" }

/-- The inventory a successful provisioning of the fixture leaves. -/
def invT : Inventory :=
  match provision_device invAssigned "aa:bb" topoT with
  | .ok p => p.2
  | .error _ => []

/-! ## Association-list (Python dict) lemmas -/

theorem pyLookup_nil (k : String) : pyLookup ([] : List (String × α)) k = none := rfl

theorem pyLookup_cons (p : String × α) (t : List (String × α)) (k : String) :
    pyLookup (p :: t) k = if p.1 = k then some p.2 else pyLookup t k := by
  by_cases h : p.1 = k <;> simp [pyLookup, List.find?_cons, h]

theorem mem_of_pyLookup_eq_some {m : List (String × α)} {k : String} {v : α}
    (h : pyLookup m k = some v) : (k, v) ∈ m := by
  induction m with
  | nil => simp [pyLookup] at h
  | cons p t ih =>
      rw [pyLookup_cons] at h
      by_cases hp : p.1 = k
      · rw [if_pos hp] at h
        obtain ⟨a, b⟩ := p
        obtain rfl : a = k := hp
        obtain rfl : b = v := by injection h
        exact List.mem_cons_self _ _
      · rw [if_neg hp] at h
        exact List.mem_cons_of_mem _ (ih h)

theorem pyMem_iff_mem_keys {m : List (String × α)} {k : String} :
    pyMem m k = true ↔ k ∈ m.map Prod.fst := by
  induction m with
  | nil => simp [pyMem, pyLookup]
  | cons p t ih =>
      by_cases hp : p.1 = k
      · simp [pyMem, pyLookup_cons, hp]
      · simpa [pyMem, pyLookup_cons, hp, Ne.symm hp] using ih

theorem pyLookup_eq_none_iff {m : List (String × α)} {k : String} :
    pyLookup m k = none ↔ k ∉ m.map Prod.fst := by
  induction m with
  | nil => simp [pyLookup]
  | cons p t ih =>
      by_cases hp : p.1 = k
      · simp [pyLookup_cons, hp]
      · simp [pyLookup_cons, hp, ih, Ne.symm hp]

theorem snd_unique_of_nodup_keys {m : List (String × α)}
    (hn : (m.map Prod.fst).Nodup) {k : String} {v w : α}
    (hv : (k, v) ∈ m) (hw : (k, w) ∈ m) : v = w := by
  induction m with
  | nil => cases hv
  | cons p t ih =>
      simp only [List.map_cons, List.nodup_cons] at hn
      rcases List.mem_cons.mp hv with rfl | hv' <;>
        rcases List.mem_cons.mp hw with h | hw'
      · cases h; rfl
      · exact absurd (List.mem_map_of_mem Prod.fst hw') (by simpa using hn.1)
      · cases h
        exact absurd (List.mem_map_of_mem Prod.fst hv') (by simpa using hn.1)
      · exact ih hn.2 hv' hw'

theorem pyLookup_map_replace_self (t : List (String × α)) (k : String) (v : α)
    (h : pyMem t k = true) :
    pyLookup (t.map (fun p => if p.1 = k then (k, v) else p)) k = some v := by
  induction t with
  | nil => simp [pyMem, pyLookup] at h
  | cons p t ih =>
      by_cases hp : p.1 = k
      · simp [pyLookup_cons, hp]
      · have ht : pyMem t k = true := by
          simpa [pyMem, pyLookup_cons, hp] using h
        simp [pyLookup_cons, hp, ih ht]

theorem pyLookup_map_replace_ne (t : List (String × α)) (k k' : String) (v : α)
    (h : k' ≠ k) :
    pyLookup (t.map (fun p => if p.1 = k then (k, v) else p)) k' = pyLookup t k' := by
  induction t with
  | nil => rfl
  | cons p t ih =>
      by_cases hp : p.1 = k
      · simp [pyLookup_cons, hp, Ne.symm h, ih]
      · simp [pyLookup_cons, hp, ih]

theorem pyLookup_append_single_self (m : List (String × α)) (k : String) (v : α)
    (h : pyLookup m k = none) : pyLookup (m ++ [(k, v)]) k = some v := by
  induction m with
  | nil => simp [pyLookup_cons]
  | cons p t ih =>
      rw [pyLookup_cons] at h
      by_cases hp : p.1 = k
      · rw [if_pos hp] at h; cases h
      · rw [if_neg hp] at h
        simpa [List.cons_append, pyLookup_cons, hp] using ih h

theorem pyLookup_append_single_ne (m : List (String × α)) (k k' : String) (v : α)
    (h : k' ≠ k) : pyLookup (m ++ [(k, v)]) k' = pyLookup m k' := by
  induction m with
  | nil => simp [pyLookup, List.find?, Ne.symm h]
  | cons p t ih => simp [List.cons_append, pyLookup_cons, ih]

theorem pyLookup_dictSet_self (m : List (String × α)) (k : String) (v : α) :
    pyLookup (dictSet m k v) k = some v := by
  unfold dictSet
  by_cases hm : pyMem m k
  · rw [if_pos hm]
    exact pyLookup_map_replace_self m k v hm
  · rw [if_neg hm]
    refine pyLookup_append_single_self m k v ?_
    cases hl : pyLookup m k with
    | none => rfl
    | some w => exact absurd (by simp [pyMem, hl]) hm

theorem pyLookup_dictSet_ne (m : List (String × α)) (k k' : String) (v : α)
    (h : k' ≠ k) : pyLookup (dictSet m k v) k' = pyLookup m k' := by
  unfold dictSet
  by_cases hm : pyMem m k
  · rw [if_pos hm]
    exact pyLookup_map_replace_ne m k k' v h
  · rw [if_neg hm]
    exact pyLookup_append_single_ne m k k' v h

theorem mem_dictSet {m : List (String × α)} {k : String} {v : α} {q : String × α}
    (hq : q ∈ dictSet m k v) : q ∈ m ∨ q = (k, v) := by
  unfold dictSet at hq
  by_cases hm : pyMem m k
  · rw [if_pos hm] at hq
    obtain ⟨p, hp, he⟩ := List.mem_map.mp hq
    by_cases hpk : p.1 = k
    · simp [hpk] at he
      right
      exact he.symm
    · simp [hpk] at he
      left
      exact he ▸ hp
  · rw [if_neg hm] at hq
    simpa using List.mem_append.mp hq

/-- Fold invariant helper. -/
theorem foldl_inv {σ α : Type _} (P : σ → Prop) (f : σ → α → σ)
    (hf : ∀ s x, P s → P (f s x)) :
    ∀ (l : List α) (s : σ), P s → P (l.foldl f s) := by
  intro l
  induction l with
  | nil => intro s hs; exact hs
  | cons x t ih => intro s hs; exact ih _ (hf s x hs)

/-! ## Sorting lemmas -/

theorem mem_insertPrio {x a : ReconciliationAction} :
    ∀ {l}, x ∈ insertPrio a l ↔ x = a ∨ x ∈ l := by
  intro l
  induction l with
  | nil => simp [insertPrio]
  | cons b bs ih =>
      by_cases h : b.priority ≤ a.priority
      · simp [insertPrio, h, ih]
        tauto
      · simp [insertPrio, h]

theorem sorted_insertPrio (a : ReconciliationAction) :
    ∀ {l}, l.Pairwise (fun x y => x.priority ≤ y.priority) →
      (insertPrio a l).Pairwise (fun x y => x.priority ≤ y.priority) := by
  intro l h
  induction l with
  | nil => simp [insertPrio]
  | cons b bs ih =>
      rw [List.pairwise_cons] at h
      by_cases hc : b.priority ≤ a.priority
      · rw [insertPrio, if_pos hc, List.pairwise_cons]
        refine ⟨fun y hy => ?_, ih h.2⟩
        rcases mem_insertPrio.mp hy with rfl | hy'
        · exact hc
        · exact h.1 y hy'
      · rw [insertPrio, if_neg hc, List.pairwise_cons]
        have hab : a.priority ≤ b.priority := Nat.le_of_not_le hc
        refine ⟨fun y hy => ?_, List.pairwise_cons.mpr h⟩
        rcases List.mem_cons.mp hy with rfl | hy'
        · exact hab
        · exact Nat.le_trans hab (h.1 y hy')

theorem sortByPriority_pairwise (l : List ReconciliationAction) :
    (sortByPriority l).Pairwise (fun x y => x.priority ≤ y.priority) := by
  have key : ∀ (t acc : List ReconciliationAction),
      acc.Pairwise (fun x y => x.priority ≤ y.priority) →
      (t.foldl (fun acc a => insertPrio a acc) acc).Pairwise
        (fun x y => x.priority ≤ y.priority) := by
    intro t
    induction t with
    | nil => intro acc h; exact h
    | cons a t ih => intro acc h; exact ih _ (sorted_insertPrio a h)
  exact key l [] (by simp)

theorem mem_sortByPriority {x : ReconciliationAction} {l : List ReconciliationAction} :
    x ∈ sortByPriority l ↔ x ∈ l := by
  have key : ∀ (t acc : List ReconciliationAction),
      x ∈ t.foldl (fun acc a => insertPrio a acc) acc ↔ x ∈ acc ∨ x ∈ t := by
    intro t
    induction t with
    | nil => simp
    | cons a t ih =>
        intro acc
        rw [List.foldl_cons, ih, mem_insertPrio]
        simp
        tauto
  simpa using key l []

/-! ## Shape of the planned actions -/

theorem computeDiff_priority_table (d a : NetState) :
    ∀ x ∈ computeDiff d a, PriorityTable x := by
  intro x hx
  simp only [computeDiff, diffVpcBlock, diffVxlanBlock, diffVrfBlock,
    diffDeleteBlock, diffRouteBlock, List.mem_append, List.mem_filterMap] at hx
  rcases hx with ((((⟨p, _, he⟩ | ⟨p, _, he⟩) | ⟨p, _, he⟩) | ⟨p, _, he⟩) | ⟨p, _, he⟩) <;>
    unfold PriorityTable <;>
    split at he <;>
    first
      | (injection he with he; subst he; simp)
      | (cases he)
      | (split at he <;> first
          | (injection he with he; subst he; simp)
          | (cases he))

theorem kindRank_mono {x y : ReconciliationAction} (hx : PriorityTable x)
    (hy : PriorityTable y) (hp : x.priority ≤ y.priority) :
    kindRank x ≤ kindRank y := by
  rcases hx with ⟨e1, e2, e3⟩ | ⟨e1, e2, e3⟩ | ⟨e1, e2, e3⟩ | ⟨e1, e2, e3⟩ | ⟨e1, e2, e3⟩ | ⟨e1, e2, e3⟩ <;>
    rcases hy with ⟨f1, f2, f3⟩ | ⟨f1, f2, f3⟩ | ⟨f1, f2, f3⟩ | ⟨f1, f2, f3⟩ | ⟨f1, f2, f3⟩ | ⟨f1, f2, f3⟩ <;>
    rw [e3, f3] at hp <;>
    simp [kindRank, e1, e2, f1, f2] <;>
    omega

/-! ## One-cycle characterisation of the execution engine -/

theorem execPlanned_foldl (ex : ReconciliationAction → Except String Unit) :
    ∀ (l : List ReconciliationAction) (p : List ReconciliationAction)
      (r : CycleResult),
      l.foldl (execPlanned ex) (p, r) =
        (p ++ l.filterMap (plannedPendOne ex),
         { success := r.success && l.all (plannedOkOne ex),
           actions_taken := r.actions_taken ++ l.filter (execOk ex),
           errors := r.errors ++ l.filterMap (plannedErrOne ex),
           executed_log := r.executed_log ++ l }) := by
  intro l
  induction l with
  | nil => intro p r; simp
  | cons a t ih =>
      intro p r
      rw [List.foldl_cons]
      cases hx : ex a with
      | ok u =>
          rw [show execPlanned ex (p, r) a =
              (p, { r with
                      actions_taken := r.actions_taken ++ [a],
                      executed_log := r.executed_log ++ [a] }) by
            simp [execPlanned, hx]]
          rw [ih]
          simp [plannedPendOne, plannedErrOne, plannedOkOne, execOk, hx]
      | error e =>
          by_cases hlt : a.retries + 1 < a.max_retries
          · rw [show execPlanned ex (p, r) a =
                (p ++ [{ a with retries := a.retries + 1 }],
                 { r with
                     errors := r.errors ++ ["Action failed, will retry: " ++ e],
                     executed_log := r.executed_log ++ [a] }) by
              simp [execPlanned, hx, hlt]]
            rw [ih]
            simp [plannedPendOne, plannedErrOne, plannedOkOne, execOk, hx, hlt]
          · rw [show execPlanned ex (p, r) a =
                (p, { r with
                        errors := r.errors ++ ["Action failed permanently: " ++ e],
                        success := false,
                        executed_log := r.executed_log ++ [a] }) by
              simp [execPlanned, hx, hlt]]
            rw [ih]
            simp [plannedPendOne, plannedErrOne, plannedOkOne, execOk, hx, hlt]

theorem processPending_foldl (ex : ReconciliationAction → Except String Unit) :
    ∀ (l rem : List ReconciliationAction) (r : CycleResult),
      l.foldl
        (fun (st : List ReconciliationAction × CycleResult) action =>
          if action.retries ≤ action.max_retries then
            let r' := { st.2 with executed_log := st.2.executed_log ++ [action] }
            match ex action with
            | .ok _ =>
                (st.1, { r' with actions_taken := r'.actions_taken ++ [action] })
            | .error _ =>
                (st.1 ++ [{ action with retries := action.retries + 1 }], r')
          else st)
        (rem, r) =
      (rem ++ l.filterMap (pendRemainOne ex),
       { r with
           actions_taken := r.actions_taken ++ l.filter (pendTakenP ex),
           executed_log := r.executed_log ++ l.filter pendAttemptP }) := by
  intro l
  induction l with
  | nil => intro rem r; simp
  | cons a t ih =>
      intro rem r
      rw [List.foldl_cons]
      by_cases hle : a.retries ≤ a.max_retries
      · cases hx : ex a with
        | ok u =>
            rw [show (if a.retries ≤ a.max_retries then _ else (rem, r)) =
                (rem, { r with
                          actions_taken := r.actions_taken ++ [a],
                          executed_log := r.executed_log ++ [a] }) by
              simp [hle, hx]]
            rw [ih]
            simp [pendRemainOne, pendAttemptP, pendTakenP, execOk, hle, hx]
        | error e =>
            rw [show (if a.retries ≤ a.max_retries then _ else (rem, r)) =
                (rem ++ [{ a with retries := a.retries + 1 }],
                 { r with executed_log := r.executed_log ++ [a] }) by
              simp [hle, hx]]
            rw [ih]
            simp [pendRemainOne, pendAttemptP, pendTakenP, execOk, hle, hx]
      · rw [if_neg hle, ih]
        simp [pendRemainOne, pendAttemptP, pendTakenP, hle]

theorem processPending_eq (ex : ReconciliationAction → Except String Unit)
    (l : List ReconciliationAction) (r : CycleResult) :
    processPending ex l r =
      (l.filterMap (pendRemainOne ex),
       { r with
           actions_taken := r.actions_taken ++ l.filter (pendTakenP ex),
           executed_log := r.executed_log ++ l.filter pendAttemptP }) := by
  have h := processPending_foldl ex l [] r
  simpa [processPending] using h

theorem reconcileCycle_eq (ex : ReconciliationAction → Except String Unit)
    (planned pending : List ReconciliationAction) :
    reconcileCycle ex planned pending =
      ((pending ++ (sortByPriority planned).filterMap (plannedPendOne ex)).filterMap
         (pendRemainOne ex),
       { success := (sortByPriority planned).all (plannedOkOne ex),
         actions_taken :=
           (sortByPriority planned).filter (execOk ex)
             ++ (pending ++ (sortByPriority planned).filterMap (plannedPendOne ex)).filter
                  (pendTakenP ex),
         errors := (sortByPriority planned).filterMap (plannedErrOne ex),
         executed_log :=
           sortByPriority planned
             ++ (pending ++ (sortByPriority planned).filterMap (plannedPendOne ex)).filter
                  pendAttemptP }) := by
  unfold reconcileCycle
  rw [execPlanned_foldl]
  rw [show (processPending ex
      (pending ++ (sortByPriority planned).filterMap (plannedPendOne ex))
      { success := true && (sortByPriority planned).all (plannedOkOne ex),
        actions_taken := [] ++ (sortByPriority planned).filter (execOk ex),
        errors := [] ++ (sortByPriority planned).filterMap (plannedErrOne ex),
        executed_log := [] ++ sortByPriority planned }) = _ from
    processPending_eq ex _ _]
  simp

/-! ## Counting lemmas -/

theorem countP_eq_one_of_nodup_mem {L : List String} (hn : L.Nodup)
    {k : String} (hk : k ∈ L) :
    L.countP (fun s => s = k) = 1 := by
  induction L with
  | nil => cases hk
  | cons a t ih =>
      rw [List.nodup_cons] at hn
      rw [List.countP_cons]
      by_cases hak : a = k
      · subst hak
        have : t.countP (fun s => s = a) = 0 := by
          rw [List.countP_eq_zero]
          intro x hx
          simp only [decide_eq_true_eq]
          intro hxa
          exact hn.1 (hxa ▸ hx)
        simp [this]
      · have hkt : k ∈ t := by
          rcases List.mem_cons.mp hk with rfl | h
          · exact absurd rfl hak
          · exact h
        simp [ih hn.2 hkt, hak]

theorem countP_filterMap_congr {α β : Type _} {p : β → Bool}
    {f : α → Option β} {q : α → Bool} :
    ∀ {l : List α}, (∀ x ∈ l, ((f x).map p).getD false = q x) →
      (l.filterMap f).countP p = l.countP q := by
  intro l
  induction l with
  | nil => intro _; rfl
  | cons x t ih =>
      intro h
      have hx := h x (List.mem_cons_self _ _)
      have ht := ih (fun y hy => h y (List.mem_cons_of_mem _ hy))
      cases hfx : f x with
      | none =>
          have hq : q x = false := by rw [← hx, hfx]; rfl
          simp only [List.filterMap_cons, hfx, List.countP_cons, ht, hq]
          simp
      | some b =>
          have hq : q x = p b := by rw [← hx, hfx]; rfl
          simp only [List.filterMap_cons, hfx, List.countP_cons, ht, hq]

theorem countP_filterMap_zero {α : Type _} {p : ReconciliationAction → Bool}
    {f : α → Option ReconciliationAction} {l : List α}
    (h : ∀ x ∈ l, ∀ b, f x = some b → p b = false) :
    (l.filterMap f).countP p = 0 := by
  rw [List.countP_eq_zero]
  intro b hb
  obtain ⟨x, hx, hfx⟩ := List.mem_filterMap.mp hb
  simp [h x hx b hfx]

/-! ## The executor is total -/

theorem executeAction_ok (env : Env) (a : ReconciliationAction) :
    executeAction env a = .ok () := by
  cases hr : a.resource_type <;>
    simp [executeAction, hr, applyVpcAction, applyRouteAction,
      applyVxlanAction, applyVrfAction, catchAll, switches] <;>
    intro _ <;> rfl

/-! ## Claim theorems -/

/-- C1: for every desired and actual state, every action `_compute_diff`
produces carries the priority of its kind — CREATE(VPC) 10, UPDATE(VPC)
20, CREATE(VRF) 25, CREATE(VXLAN_TUNNEL) 30, CREATE(ROUTE) 50,
DELETE(VPC) 200 — and `reconcile` executes the planned actions sorted
ascending by priority, so in execution order every CREATE(VPC) precedes
every CREATE(VRF), which precedes every CREATE(VXLAN_TUNNEL), which
precedes every CREATE(ROUTE), which precedes every DELETE. -/
theorem C1_priority_ordering (d a : NetState) :
    (∀ x ∈ computeDiff d a, PriorityTable x) ∧
    (sortByPriority (computeDiff d a)).Pairwise
      (fun x y => x.priority ≤ y.priority) ∧
    (sortByPriority (computeDiff d a)).Pairwise
      (fun x y => kindRank x ≤ kindRank y) ∧
    (∀ ex pending, ∃ rest,
      (reconcileCycle ex (computeDiff d a) pending).2.executed_log
        = sortByPriority (computeDiff d a) ++ rest) := by
  refine ⟨computeDiff_priority_table d a, sortByPriority_pairwise _, ?_, ?_⟩
  · refine List.Pairwise.imp_of_mem ?_ (sortByPriority_pairwise (computeDiff d a))
    intro x y hx hy hp
    exact kindRank_mono
      (computeDiff_priority_table d a x (mem_sortByPriority.mp hx))
      (computeDiff_priority_table d a y (mem_sortByPriority.mp hy)) hp
  · intro ex pending
    rw [reconcileCycle_eq]
    exact ⟨_, rfl⟩

/-- Witness for C1 at the scenario state: the CREATE(VPC) action the
planner emits for `vpc-a` falls under the priority table. -/
theorem C1_priority_ordering_witness :
    PriorityTable
      { action_type := .CREATE, resource_type := .VPC,
        resource_id := .str "vpc-a",
        target_state := [("id", .str "vpc-a"), ("name", .str "vpc-a"),
          ("cidr", .str "10.1.0.0/16"), ("vni", .int 1003),
          ("vrf", .str "VRF-vpc-a"), ("status", .str "available")],
        priority := 10 } :=
  (C1_priority_ordering desiredA NetState.empty).1 _ (by decide)

/-- C2: diffing the desired state {VPC `vpc-a` (cidr 10.1.0.0/16, vni
1003, vrf VRF-vpc-a), derived tunnel `vni-1003`, no routes} against an
empty actual state yields exactly three actions; sorted ascending by
priority they are CREATE VPC `vpc-a` (10), CREATE VRF `VRF-vpc-a` (25),
CREATE VXLAN tunnel `vni-1003` (30) — no ROUTE and no DELETE action. -/
theorem C2_first_cycle_scenario :
    (computeDiff desiredA NetState.empty).length = 3 ∧
    sortByPriority (computeDiff desiredA NetState.empty) =
      [{ action_type := .CREATE, resource_type := .VPC,
         resource_id := .str "vpc-a",
         target_state := [("id", .str "vpc-a"), ("name", .str "vpc-a"),
           ("cidr", .str "10.1.0.0/16"), ("vni", .int 1003),
           ("vrf", .str "VRF-vpc-a"), ("status", .str "available")],
         priority := 10 },
       { action_type := .CREATE, resource_type := .VRF,
         resource_id := .str "VRF-vpc-a",
         target_state := [("id", .str "vpc-a"), ("name", .str "vpc-a"),
           ("cidr", .str "10.1.0.0/16"), ("vni", .int 1003),
           ("vrf", .str "VRF-vpc-a"), ("status", .str "available")],
         priority := 25 },
       { action_type := .CREATE, resource_type := .VXLAN_TUNNEL,
         resource_id := .str "vni-1003",
         target_state := [("vni", .int 1003), ("vpc_id", .str "vpc-a")],
         priority := 30 }] := by
  decide

/-- C3 counterexample: the concrete always-failing fresh action (with
the default `max_retries = 3`) is attempted 4 times — not 3 — across
the cycles, no permanent-error entry is ever recorded, every cycle ends
with `success = true`, and the action is dropped from the pending queue
silently in the fourth cycle. -/
theorem C3_retry_exhaustion_counterexample :
    let c1 := reconcileCycle alwaysFail [actA] []
    let c2 := reconcileCycle alwaysFail [] c1.1
    let c3 := reconcileCycle alwaysFail [] c2.1
    let c4 := reconcileCycle alwaysFail [] c3.1
    let c5 := reconcileCycle alwaysFail [] c4.1
    actA.max_retries = 3 ∧
    c1.2.executed_log.length + c2.2.executed_log.length
      + c3.2.executed_log.length + c4.2.executed_log.length
      + c5.2.executed_log.length = 4 ∧
    c1.2.executed_log.length + c2.2.executed_log.length
      + c3.2.executed_log.length + c4.2.executed_log.length
      + c5.2.executed_log.length ≠ actA.max_retries ∧
    c1.2.errors = ["Action failed, will retry: boom"] ∧
    c2.2.errors = [] ∧ c3.2.errors = [] ∧ c4.2.errors = [] ∧
    c5.2.errors = [] ∧
    c1.2.success = true ∧ c2.2.success = true ∧ c3.2.success = true ∧
    c4.2.success = true ∧ c5.2.success = true ∧
    c4.1 = [] := by
  decide

/-- C3 (amended): a fresh action (`retries = 0`, `max_retries = 3`)
whose execution always raises is attempted `max_retries + 1 = 4` times
in total — once from the planned loop and once more in the same
cycle's pending pass, then once in each of the next two cycles — after
which it is silently dropped from the pending queue (never attempted
again): no permanent-error entry is recorded and no cycle's `success`
flag is cleared; the only error entry is the single will-retry record
of the first cycle. -/
theorem C3_retry_exhaustion_amended (err : ReconciliationAction → String)
    (a : ReconciliationAction) (h0 : a.retries = 0) (hm : a.max_retries = 3) :
    let ex : ReconciliationAction → Except String Unit :=
      fun x => .error (err x)
    let c1 := reconcileCycle ex [a] []
    let c2 := reconcileCycle ex [] c1.1
    let c3 := reconcileCycle ex [] c2.1
    let c4 := reconcileCycle ex [] c3.1
    let c5 := reconcileCycle ex [] c4.1
    c1.2.executed_log = [a, { a with retries := 1 }] ∧
    c2.2.executed_log = [{ a with retries := 2 }] ∧
    c3.2.executed_log = [{ a with retries := 3 }] ∧
    c4.2.executed_log = [] ∧ c5.2.executed_log = [] ∧
    c4.1 = [] ∧ c5.1 = [] ∧
    c1.2.errors = ["Action failed, will retry: " ++ err a] ∧
    c2.2.errors = [] ∧ c3.2.errors = [] ∧ c4.2.errors = [] ∧
    c1.2.success = true ∧ c2.2.success = true ∧ c3.2.success = true ∧
    c4.2.success = true := by
  simp [reconcileCycle_eq, sortByPriority, insertPrio, plannedPendOne,
    plannedErrOne, plannedOkOne, pendRemainOne, pendAttemptP, pendTakenP,
    execOk, h0, hm]

/-- Witness for C3 (amended) at the concrete fixture. -/
theorem C3_retry_exhaustion_witness :
    (reconcileCycle (fun x => Except.error ((fun _ => "boom") x)) [actA]
        []).2.executed_log = [actA, { actA with retries := 1 }] :=
  (C3_retry_exhaustion_amended (fun _ => "boom") actA rfl rfl).1

/-- C4 (amended): no single action's failure ever aborts a cycle — the
whole sorted planned list is attempted, followed by every pending
action still under its retry bound, no matter which executions raise;
but only failures of freshly planned actions append an entry to the
cycle's error list: exceptions during the pending-list reprocessing are
swallowed without any error entry. -/
theorem C4_error_isolation_amended
    (ex : ReconciliationAction → Except String Unit)
    (planned pending : List ReconciliationAction) :
    (reconcileCycle ex planned pending).2.executed_log
      = sortByPriority planned
        ++ (pending ++ (sortByPriority planned).filterMap
              (plannedPendOne ex)).filter pendAttemptP ∧
    (reconcileCycle ex planned pending).2.errors
      = (sortByPriority planned).filterMap (plannedErrOne ex) := by
  rw [reconcileCycle_eq]
  exact ⟨rfl, rfl⟩

/-- C4 counterexample: a pending-list action that raises is attempted
(and requeued with a bumped retry counter), yet the cycle's error list
stays empty — the exception is not appended to the error list as the
claim states. -/
theorem C4_error_isolation_counterexample :
    (reconcileCycle alwaysFail [] [{ actA with retries := 1 }]).2.executed_log
      = [{ actA with retries := 1 }] ∧
    (reconcileCycle alwaysFail [] [{ actA with retries := 1 }]).1
      = [{ actA with retries := 2 }] ∧
    (reconcileCycle alwaysFail [] [{ actA with retries := 1 }]).2.errors
      = [] := by
  decide

/-- C9: for every environment, executing an action of resource type
VPC, ROUTE, VXLAN_TUNNEL or VRF never raises (each per-switch step of
the VPC/VXLAN/VRF appliers sits in its own handler and the route
applier performs no fallible operation); consequently, with this
executor the retry/requeue and permanent-failure branches of
`reconcile` are unreachable: a cycle records no errors, keeps
`success = true`, takes every planned action and every queued pending
action under its retry bound, and leaves the pending queue empty. -/
theorem C9_execute_never_raises (env : Env) :
    (∀ a : ReconciliationAction,
       a.resource_type = .VPC ∨ a.resource_type = .ROUTE ∨
         a.resource_type = .VXLAN_TUNNEL ∨ a.resource_type = .VRF →
       executeAction env a = .ok ()) ∧
    (∀ planned pending : List ReconciliationAction,
       (reconcileCycle (executeAction env) planned pending).2.errors = [] ∧
       (reconcileCycle (executeAction env) planned pending).2.success = true ∧
       (reconcileCycle (executeAction env) planned pending).2.actions_taken
         = sortByPriority planned ++ pending.filter pendAttemptP ∧
       (reconcileCycle (executeAction env) planned pending).1 = []) := by
  have hok := executeAction_ok env
  have hpend : ∀ x, plannedPendOne (executeAction env) x = none := by
    intro x
    simp [plannedPendOne, hok x]
  have herr : ∀ x, plannedErrOne (executeAction env) x = none := by
    intro x
    simp [plannedErrOne, hok x]
  have hallok : ∀ x, plannedOkOne (executeAction env) x = true := by
    intro x
    simp [plannedOkOne, hok x]
  have hexec : ∀ x, execOk (executeAction env) x = true := by
    intro x
    simp [execOk, hok x]
  have hremain : ∀ x, pendRemainOne (executeAction env) x = none := by
    intro x
    unfold pendRemainOne
    split
    · simp [hok x]
    · rfl
  refine ⟨fun a _ => hok a, fun planned pending => ?_⟩
  rw [reconcileCycle_eq]
  refine ⟨?_, ?_, ?_, ?_⟩
  · simp [List.filterMap_eq_nil_iff.mpr (fun x _ => herr x)]
  · simp [List.all_eq_true.mpr (fun x _ => hallok x)]
  · simp [List.filter_eq_self.mpr (fun x _ => hexec x),
      List.filterMap_eq_nil_iff.mpr (fun x _ => hpend x), pendTakenP,
      List.filter_congr (fun x _ => by simp [pendTakenP, hexec x] :
        ∀ x ∈ pending, (pendTakenP (executeAction env) x) = pendAttemptP x)]
  · simp [List.filterMap_eq_nil_iff.mpr (fun x _ => hremain x)]

/-- Witness for C9 at a concrete healthy environment and a concrete
VPC action. -/
theorem C9_execute_never_raises_witness :
    executeAction envOk actA = .ok () :=
  (C9_execute_never_raises envOk).1 actA (Or.inl rfl)

/-- C5 (amended): a VPC present (by id) in the desired state and absent
from the actual state yields exactly one CREATE action of resource type
VPC for that id, and every CREATE(VPC) action carries priority 10;
a VPC present in both states with equal state-hashes yields zero
actions *of resource type VPC* for that id (an identically named route
or tunnel can still produce actions of other resource types carrying
the same id).  The key-distinctness hypothesis encodes the Python dict
invariant that ids are unique. -/
theorem C5_diff_minimality_amended (d a : NetState)
    (hnd : (d.vpcs.map Prod.fst).Nodup) :
    (∀ k r, pyLookup d.vpcs k = some r → pyLookup a.vpcs k = none →
      (computeDiff d a).countP (isCreateVpcFor k) = 1 ∧
      ∀ x ∈ computeDiff d a, isCreateVpcFor k x = true → x.priority = 10) ∧
    (∀ k r ra, pyLookup d.vpcs k = some r → pyLookup a.vpcs k = some ra →
      stateHash r = stateHash ra →
      (computeDiff d a).countP (isVpcActionFor k) = 0) := by
  constructor
  · intro k r hd ha
    constructor
    · have hb1 : (diffVpcBlock d a).countP (isCreateVpcFor k)
          = d.vpcs.countP (fun pr => decide (pr.1 = k)) := by
        unfold diffVpcBlock
        apply countP_filterMap_congr
        intro x _
        by_cases hpk : x.1 = k
        · simp [hpk, ha, isCreateVpcFor]
        · cases hl : pyLookup a.vpcs x.1 with
          | none => simp [hl, isCreateVpcFor, hpk]
          | some va =>
              by_cases hh : stateHash x.2 ≠ stateHash va
              · simp [hl, hh, isCreateVpcFor, hpk]
              · simp [hl, hh, isCreateVpcFor, hpk]
      have hb2 : (diffVxlanBlock d a).countP (isCreateVpcFor k) = 0 := by
        apply countP_filterMap_zero
        intro x _ b hb
        unfold diffVxlanBlock at hb
        split at hb
        · injection hb with hb; subst hb; simp [isCreateVpcFor]
        · cases hb
      have hb3 : (diffVrfBlock d a).countP (isCreateVpcFor k) = 0 := by
        apply countP_filterMap_zero
        intro x _ b hb
        by_cases htr : (pyGet x.2 "vrf").pyTruthy
        · simp [htr] at hb
          obtain ⟨-, rfl⟩ := hb
          simp [isCreateVpcFor]
        · simp [htr] at hb
      have hb4 : (diffDeleteBlock d a).countP (isCreateVpcFor k) = 0 := by
        apply countP_filterMap_zero
        intro x _ b hb
        split at hb
        · injection hb with hb; subst hb; simp [isCreateVpcFor]
        · cases hb
      have hb5 : (diffRouteBlock d a).countP (isCreateVpcFor k) = 0 := by
        apply countP_filterMap_zero
        intro x _ b hb
        split at hb
        · injection hb with hb; subst hb; simp [isCreateVpcFor]
        · cases hb
      have hcount : d.vpcs.countP (fun pr => decide (pr.1 = k)) = 1 := by
        have hk : k ∈ d.vpcs.map Prod.fst :=
          List.mem_map_of_mem Prod.fst (mem_of_pyLookup_eq_some hd)
        have h1 := countP_eq_one_of_nodup_mem hnd hk
        have h2 := List.countP_map (fun s => decide (s = k)) Prod.fst d.vpcs
        rw [h2] at h1
        exact h1
      simp only [computeDiff, List.countP_append, hb1, hb2, hb3, hb4, hb5,
        hcount]
    · intro x hx h1
      have ht := computeDiff_priority_table d a x hx
      simp only [isCreateVpcFor, decide_eq_true_eq] at h1
      rcases ht with h | h | h | h | h | h
      · exact h.2.2
      all_goals simp_all
  · intro k r ra hd ha hh
    have hb1 : (diffVpcBlock d a).countP (isVpcActionFor k) = 0 := by
      apply countP_filterMap_zero
      intro x hx b hb
      by_cases hpk : x.1 = k
      · have hxr : x.2 = r := by
          have hmem : (k, x.2) ∈ d.vpcs := by
            rw [← hpk]
            simpa using hx
          exact snd_unique_of_nodup_keys hnd hmem (mem_of_pyLookup_eq_some hd)
        have ha' : pyLookup a.vpcs x.1 = some ra := by rw [hpk]; exact ha
        unfold diffVpcBlock at hb
        simp only [ha'] at hb
        rw [hxr] at hb
        simp [hh] at hb
      · split at hb
        · injection hb with hb; subst hb; simp [isVpcActionFor, hpk]
        · split at hb
          · injection hb with hb; subst hb; simp [isVpcActionFor, hpk]
          · cases hb
    have hb2 : (diffVxlanBlock d a).countP (isVpcActionFor k) = 0 := by
      apply countP_filterMap_zero
      intro x _ b hb
      split at hb
      · injection hb with hb; subst hb; simp [isVpcActionFor]
      · cases hb
    have hb3 : (diffVrfBlock d a).countP (isVpcActionFor k) = 0 := by
      apply countP_filterMap_zero
      intro x _ b hb
      by_cases htr : (pyGet x.2 "vrf").pyTruthy
      · simp [htr] at hb
        obtain ⟨-, rfl⟩ := hb
        simp [isVpcActionFor]
      · simp [htr] at hb
    have hb4 : (diffDeleteBlock d a).countP (isVpcActionFor k) = 0 := by
      apply countP_filterMap_zero
      intro x _ b hb
      by_cases hpk : x.1 = k
      · have hmem' : pyMem d.vpcs x.1 = true := by
          rw [hpk]
          simp [pyMem, hd]
        simp [hmem'] at hb
      · split at hb
        · injection hb with hb; subst hb; simp [isVpcActionFor, hpk]
        · cases hb
    have hb5 : (diffRouteBlock d a).countP (isVpcActionFor k) = 0 := by
      apply countP_filterMap_zero
      intro x _ b hb
      split at hb
      · injection hb with hb; subst hb; simp [isVpcActionFor]
      · cases hb
    simp only [computeDiff, List.countP_append, hb1, hb2, hb3, hb4, hb5]

/-- C5 counterexample: with the desired state holding VPC `a` and a
route also named `a`, and the actual state holding the identical VPC
record for `a` (equal state-hashes), `_compute_diff` still emits one
action whose `resource_id` is `a` — the CREATE(ROUTE) — refuting the
claim's "zero actions whose resource_id is that VPC id". -/
theorem C5_diff_minimality_counterexample :
    let rec0 : Record := [("id", Value.str "a"), ("status", Value.str "up")]
    let d : NetState :=
      { vpcs := [("a", rec0)], routes := [("a", [("id", Value.str "a")])],
        vxlan_tunnels := [] }
    let ac : NetState :=
      { vpcs := [("a", rec0)], routes := [], vxlan_tunnels := [] }
    pyLookup d.vpcs "a" = some rec0 ∧
    pyLookup ac.vpcs "a" = some rec0 ∧
    stateHash rec0 = stateHash rec0 ∧
    (computeDiff d ac).countP (isActionFor "a") = 1 ∧
    (computeDiff d ac).map (fun x => x.resource_type) =
      [ResourceType.ROUTE] := by
  decide

/-- Witness for C5 (amended) at the scenario state diffed against an
empty actual state. -/
theorem C5_diff_minimality_witness :
    (computeDiff desiredA NetState.empty).countP (isCreateVpcFor "vpc-a")
      = 1 :=
  (((C5_diff_minimality_amended desiredA NetState.empty (by decide)).1
    "vpc-a"
    [("id", .str "vpc-a"), ("name", .str "vpc-a"),
     ("cidr", .str "10.1.0.0/16"), ("vni", .int 1003),
     ("vrf", .str "VRF-vpc-a"), ("status", .str "available")]
    (by decide) (by decide))).1

/-- Every VPC record `_discover_actual_state` produces has exactly the
keys `id` and `status`. -/
theorem discoverActualState_vpc_keys (env : DiscoveryEnv) (desired : NetState) :
    ∀ p ∈ (discoverActualState env desired).vpcs,
      (p.2 : Record).map Prod.fst = ["id", "status"] := by
  have hbase : ∀ p ∈ (discoverLinksBase env).vpcs,
      (p.2 : Record).map Prod.fst = ["id", "status"] := by
    unfold discoverLinksBase
    split
    · refine foldl_inv
        (fun st => ∀ p ∈ st.vpcs, (p.2 : Record).map Prod.fst = ["id", "status"])
        _ ?_ env.links NetState.empty ?_
      · intro st link hst p hp
        by_cases h1 : link.info_kind = some "vxlan"
        · rw [if_pos h1] at hp
          split at hp
          · split at hp
            · exact hst p hp
            · exact hst p hp
          · exact hst p hp
        · by_cases h2 : link.info_kind = some "vrf"
          · rw [if_neg h1, if_pos h2] at hp
            rcases mem_dictSet hp with h | h
            · exact hst p h
            · rw [h]; rfl
          · rw [if_neg h1, if_neg h2] at hp
            exact hst p hp
      · intro p hp
        simp [NetState.empty] at hp
    · intro p hp
      simp [NetState.empty] at hp
  unfold discoverActualState
  split
  · intro p hp
    simp [NetState.empty] at hp
  · refine foldl_inv
      (fun st => ∀ p ∈ st.vpcs, (p.2 : Record).map Prod.fst = ["id", "status"])
      _ ?_ desired.vpcs (discoverLinksBase env) hbase
    intro st q hst p hp
    split at hp
    · rcases mem_dictSet hp with h | h
      · exact hst p h
      · rw [h]; rfl
    · exact hst p hp

/-- Every VPC record `_fetch_desired_state` produces has exactly the
keys `id`, `name`, `cidr`, `vni`, `vrf`, `status`. -/
theorem fetchDesiredState_vpc_keys (vrows : List VPCRow)
    (rrows : List RouteRow) :
    ∀ p ∈ (fetchDesiredState vrows rrows).vpcs,
      (p.2 : Record).map Prod.fst
        = ["id", "name", "cidr", "vni", "vrf", "status"] := by
  have hvpcs : ∀ p ∈ (fetchVpcsPhase vrows).vpcs,
      (p.2 : Record).map Prod.fst
        = ["id", "name", "cidr", "vni", "vrf", "status"] := by
    unfold fetchVpcsPhase
    refine foldl_inv
      (fun st => ∀ p ∈ st.vpcs,
        (p.2 : Record).map Prod.fst
          = ["id", "name", "cidr", "vni", "vrf", "status"])
      _ ?_ vrows NetState.empty ?_
    · intro st row hst p hp
      rcases mem_dictSet hp with h | h
      · exact hst p h
      · rw [h]; rfl
    · intro p hp
      simp [NetState.empty] at hp
  unfold fetchDesiredState
  refine foldl_inv
    (fun st => ∀ p ∈ st.vpcs,
      (p.2 : Record).map Prod.fst
        = ["id", "name", "cidr", "vni", "vrf", "status"])
    _ ?_ rrows (fetchVpcsPhase vrows) hvpcs
  intro st row hst p hp
  exact hst p hp

/-- C10: discovered actual VPC records carry exactly the keys
`{id, status}` while desired VPC records carry
`{id, name, cidr, vni, vrf, status}`; hence for a VPC id present in
both snapshots the two records are never equal as attribute maps,
their state-hashes differ (hash modelled injectively, i.e. barring a
collision), and `_compute_diff` emits the UPDATE(VPC) action at
priority 20 for it — such a VPC is re-issued an UPDATE in every
cycle. -/
theorem C10_update_reissued_every_cycle :
    (∀ (env : DiscoveryEnv) (desired : NetState),
       ∀ p ∈ (discoverActualState env desired).vpcs,
         (p.2 : Record).map Prod.fst = ["id", "status"]) ∧
    (∀ (vrows : List VPCRow) (rrows : List RouteRow),
       ∀ p ∈ (fetchDesiredState vrows rrows).vpcs,
         (p.2 : Record).map Prod.fst
           = ["id", "name", "cidr", "vni", "vrf", "status"]) ∧
    (∀ (env : DiscoveryEnv) (vrows : List VPCRow) (rrows : List RouteRow)
       (k : String) (rd ra : Record),
       pyLookup (fetchDesiredState vrows rrows).vpcs k = some rd →
       pyLookup (discoverActualState env (fetchDesiredState vrows rrows)).vpcs k
         = some ra →
       rd ≠ ra ∧ stateHash rd ≠ stateHash ra ∧
       { action_type := .UPDATE, resource_type := .VPC,
         resource_id := .str k, target_state := rd,
         current_state := some ra, priority := 20 : ReconciliationAction }
         ∈ computeDiff (fetchDesiredState vrows rrows)
             (discoverActualState env (fetchDesiredState vrows rrows))) := by
  refine ⟨discoverActualState_vpc_keys, fetchDesiredState_vpc_keys, ?_⟩
  intro env vrows rrows k rd ra hd ha
  have hkd := fetchDesiredState_vpc_keys vrows rrows _
    (mem_of_pyLookup_eq_some hd)
  have hka := discoverActualState_vpc_keys env _ _
    (mem_of_pyLookup_eq_some ha)
  have hne : stateHash rd ≠ stateHash ra := by
    intro he
    have hn : "name" ∈ rd.map Prod.fst := by rw [hkd]; simp
    obtain ⟨pr, hpr, hfst⟩ := List.mem_map.mp hn
    have h1 : pr ∈ rd.toFinset := List.mem_toFinset.mpr hpr
    rw [show rd.toFinset = ra.toFinset from he] at h1
    have h2 : pr.1 ∈ ra.map Prod.fst :=
      List.mem_map_of_mem Prod.fst (List.mem_toFinset.mp h1)
    rw [hka, hfst] at h2
    simp at h2
  refine ⟨fun hre => hne (by rw [hre]), hne, ?_⟩
  unfold computeDiff
  refine List.mem_append.mpr (Or.inl ?_)
  refine List.mem_append.mpr (Or.inl ?_)
  refine List.mem_append.mpr (Or.inl ?_)
  refine List.mem_append.mpr (Or.inl ?_)
  unfold diffVpcBlock
  refine List.mem_filterMap.mpr ⟨(k, rd), mem_of_pyLookup_eq_some hd, ?_⟩
  simp only [ha]
  rw [if_pos hne]

/-- Witness for C10: a concrete environment in which the VRF device of
`vpc-a` is discovered, so its actual record is `{id, status}` and the
UPDATE action is emitted. -/
theorem C10_update_reissued_witness :
    { action_type := .UPDATE, resource_type := .VPC,
      resource_id := .str "vpc-a",
      target_state := [("id", .str "vpc-a"), ("name", .str "vpc-a"),
        ("cidr", .str "10.1.0.0/16"), ("vni", .int 1003),
        ("vrf", .str "VRF-vpc-a"), ("status", .str "available")],
      current_state := some [("id", .str "vpc-a"),
        ("status", .str "available")],
      priority := 20 : ReconciliationAction }
      ∈ computeDiff (fetchDesiredState [vpcARow] [])
          (discoverActualState
            { leaf1Exists := true, linkQueryOk := true,
              links := [{ ifname := "VRF-vpc-a", info_kind := some "vrf",
                          vni := none }],
              iptablesOutput := "" }
            (fetchDesiredState [vpcARow] [])) :=
  ((C10_update_reissued_every_cycle).2.2
    { leaf1Exists := true, linkQueryOk := true,
      links := [{ ifname := "VRF-vpc-a", info_kind := some "vrf",
                  vni := none }],
      iptablesOutput := "" }
    [vpcARow] [] "vpc-a"
    [("id", .str "vpc-a"), ("name", .str "vpc-a"),
     ("cidr", .str "10.1.0.0/16"), ("vni", .int 1003),
     ("vrf", .str "VRF-vpc-a"), ("status", .str "available")]
    [("id", .str "vpc-a"), ("status", .str "available")]
    (by decide) (by decide)).2.2

/-! ## Line-set lemmas for `diff_configs` -/

theorem mem_dedupFirst {x : String} :
    ∀ {l : List String}, x ∈ dedupFirst l ↔ x ∈ l := by
  intro l
  induction l with
  | nil => simp [dedupFirst]
  | cons a t ih =>
      by_cases hxa : x = a <;>
        simp [dedupFirst, List.mem_filter, ih, hxa]

theorem nodup_dedupFirst : ∀ l : List String, (dedupFirst l).Nodup := by
  intro l
  induction l with
  | nil => simp [dedupFirst]
  | cons a t ih =>
      rw [dedupFirst, List.nodup_cons]
      refine ⟨fun hmem => ?_, ih.filter _⟩
      have := (List.mem_filter.mp hmem).2
      simp at this

theorem filter_eq_singleton_of_nodup {l : List String} (hn : l.Nodup)
    {a : String} (ha : a ∈ l) : l.filter (fun x => x = a) = [a] := by
  induction l with
  | nil => cases ha
  | cons b t ih =>
      rw [List.nodup_cons] at hn
      by_cases hba : b = a
      · subst hba
        rw [List.filter_cons_of_pos (by simp)]
        have ht : t.filter (fun x => x = b) = [] := by
          rw [List.filter_eq_nil_iff]
          intro x hx
          simp only [decide_eq_true_eq]
          intro h
          exact hn.1 (h ▸ hx)
        rw [ht]
      · have hat : a ∈ t := by
          rcases List.mem_cons.mp ha with h | h
          · exact absurd h.symm hba
          · exact h
        rw [List.filter_cons_of_neg (by simp [hba])]
        exact ih hn.2 hat

/-! ## Claim C6 -/

/-- C6: `diff_configs` treats its two texts as unordered sets of whole
lines — a command is produced exactly for a line on one side only,
negated (`no <line>`) for current-only lines, as-is for desired-only
lines, skipping blank and `!`-comment lines; replacing one line by one
new line (at the line-set level, with both lines non-blank and
non-comment) yields exactly one negated and one additive command, and
diffing a text against itself yields no commands. -/
theorem C6_diff_configs_line_sets :
    (∀ current desired cmd,
      cmd ∈ diff_configs current desired ↔
        ((∃ l, (l ∈ lineSet current ∧ ¬ l ∈ lineSet desired) ∧
           lineCommand true l = some cmd) ∨
         (∃ l, (l ∈ lineSet desired ∧ ¬ l ∈ lineSet current) ∧
           lineCommand false l = some cmd))) ∧
    (∀ A B L Lnew,
      L ∈ lineSet A → Lnew ∉ lineSet A →
      (∀ l, l ∈ lineSet B ↔ (l ∈ lineSet A ∧ l ≠ L) ∨ l = Lnew) →
      pyStrip L ≠ "" → ¬ startsBang (pyStrip L) = true →
      pyStrip Lnew ≠ "" → ¬ startsBang (pyStrip Lnew) = true →
      diff_configs A B = ["no " ++ pyStrip L, pyStrip Lnew]) ∧
    (∀ A, diff_configs A A = []) := by
  refine ⟨?_, ?_, ?_⟩
  · intro current desired cmd
    simp only [diff_configs, List.mem_append, List.mem_filterMap,
      List.mem_filter, decide_eq_true_eq]
  · intro A B L Ln hLA hLnA hBiff hLs hLb hLns hLnb
    have hLn_ne : L ≠ Ln := fun h => hLnA (h ▸ hLA)
    have hrem : (lineSet A).filter (fun l => ¬ l ∈ lineSet B) = [L] := by
      have hcong : ∀ l ∈ lineSet A,
          (decide (¬ l ∈ lineSet B)) = (decide (l = L)) := by
        intro l hl
        by_cases hlL : l = L
        · subst hlL
          simp [hBiff, hLn_ne]
        · have hlLn : l ≠ Ln := fun h => hLnA (h ▸ hl)
          simp [hBiff, hl, hlL, hlLn]
      rw [List.filter_congr hcong]
      exact filter_eq_singleton_of_nodup (nodup_dedupFirst _) hLA
    have hadd : (lineSet B).filter (fun l => ¬ l ∈ lineSet A) = [Ln] := by
      have hcong : ∀ l ∈ lineSet B,
          (decide (¬ l ∈ lineSet A)) = (decide (l = Ln)) := by
        intro l hl
        rcases (hBiff l).mp hl with ⟨hlA, _⟩ | rfl
        · have hlLn : l ≠ Ln := fun h => hLnA (h ▸ hlA)
          simp [hlA, hlLn]
        · simp [hLnA]
      rw [List.filter_congr hcong]
      refine filter_eq_singleton_of_nodup (nodup_dedupFirst _) ?_
      exact (hBiff Ln).mpr (Or.inr rfl)
    simp only [diff_configs]
    rw [hrem, hadd]
    simp [lineCommand, hLs, hLb, hLns, hLnb]
  · intro A
    have h1 : (lineSet A).filter (fun l => ¬ l ∈ lineSet A) = [] := by
      rw [List.filter_eq_nil_iff]
      intro l hl
      simp [hl]
    simp only [diff_configs]
    rw [h1]
    simp

/-- Witness for C6 at a concrete one-line replacement. -/
theorem C6_diff_configs_witness :
    diff_configs "a\nb\nc" "a\nx\nc" = ["no b", "x"] :=
  C6_diff_configs_line_sets.2.1 "a\nb\nc" "a\nx\nc" "b" "x"
    (by decide) (by decide)
    (by
      intro l
      show l ∈ ["a", "x", "c"] ↔ (l ∈ ["a", "b", "c"] ∧ l ≠ "b") ∨ l = "x"
      simp only [List.mem_cons, List.not_mem_nil, or_false]
      constructor
      · rintro (rfl | rfl | rfl)
        · exact Or.inl ⟨Or.inl rfl, by decide⟩
        · exact Or.inr rfl
        · exact Or.inl ⟨Or.inr (Or.inr rfl), by decide⟩
      · rintro (⟨rfl | rfl | rfl, hne⟩ | rfl)
        · exact Or.inl rfl
        · exact absurd rfl hne
        · exact Or.inr (Or.inr rfl)
        · exact Or.inr (Or.inl rfl))
    (by decide) (by decide) (by decide) (by decide)

/-! ## Non-emptiness of rendered configurations -/

theorem append_ne_empty_left (a b : String) (h : a ≠ "") : a ++ b ≠ "" := by
  intro hc
  apply h
  have hd : a.data ++ b.data = [] := by
    have := congrArg String.data hc
    rwa [String.data_append] at this
  exact String.ext (List.append_eq_nil.mp hd).1

theorem frrRender_ne_empty (hostname router_id : String) (asn : Int)
    (neighbors : List Neighbor) (vrfs : List VRFConfig)
    (static_routes : List StaticRoute) :
    frrRender hostname router_id asn neighbors vrfs static_routes ≠ "" := by
  unfold frrRender
  repeat apply append_ne_empty_left
  decide

/-! ## Ranks of onboarding statuses -/

theorem statusRank_le_two (s : String) : statusRank s ≤ 2 := by
  unfold statusRank
  split
  · omega
  · split <;> omega

theorem statusRank_le_one_of_ne (s : String) (h : s ≠ "provisioned") :
    statusRank s ≤ 1 := by
  unfold statusRank
  by_cases h1 : s = "assigned"
  · simp [h1]
  · simp [h1, h]

/-! ## Claims C7 and C8 -/

/-- C7: `assign_role` on a MAC absent from the inventory fails with the
not-found error (producing no updated inventory, so the inventory is
unchanged); `provision_device` on an entry whose status is not
`assigned` fails with the invalid-state error (again leaving the
inventory as it was); and a successful `provision_device` leaves the
entry with status `provisioned` and a non-empty stored configuration
text. -/
theorem C7_onboarding_state_machine :
    (∀ (inv : Inventory) mac role rack_id position,
       pyLookup inv mac = none →
       assign_role inv mac role rack_id position
         = .error ("Device " ++ mac ++ " not in inventory")) ∧
    (∀ (inv : Inventory) mac topology d,
       pyLookup inv mac = some d → d.status ≠ "assigned" →
       provision_device inv mac topology
         = .error ("Device " ++ mac ++ " not yet assigned a role")) ∧
    (∀ (inv : Inventory) mac topology cfg inv',
       provision_device inv mac topology = .ok (cfg, inv') →
       ∃ d', pyLookup inv' mac = some d' ∧ d'.status = "provisioned" ∧
         d'.config = some cfg.config_text ∧ cfg.config_text ≠ "") := by
  refine ⟨?_, ?_, ?_⟩
  · intro inv mac role rack_id position h
    simp [assign_role, h]
  · intro inv mac topology d h hs
    simp [provision_device, h, hs]
  · intro inv mac topology cfg inv' hok
    unfold provision_device at hok
    cases hl : pyLookup inv mac with
    | none => simp only [hl] at hok; cases hok
    | some device =>
        simp only [hl] at hok
        by_cases hst : device.status ≠ "assigned"
        · rw [if_pos hst] at hok; cases hok
        · rw [if_neg hst] at hok
          cases hh : device.hostname with
          | none => simp only [hh] at hok; cases hok
          | some hostname =>
              simp only [hh] at hok
              cases hsw : pyLookup topology.switches hostname with
              | none => simp only [hsw] at hok; cases hok
              | some sd =>
                  simp only [hsw] at hok
                  simp only [Except.ok.injEq, Prod.mk.injEq] at hok
                  obtain ⟨hcfg, hinv⟩ := hok
                  subst hcfg
                  subst hinv
                  refine ⟨_, pyLookup_dictSet_self _ _ _, rfl, rfl, ?_⟩
                  exact frrRender_ne_empty hostname sd.router_id sd.asn
                    sd.neighbors sd.vrfs []

/-- Witness for C7: the concrete discover → assign → provision run. -/
theorem C7_onboarding_state_machine_witness :
    ∃ d', pyLookup invT "aa:bb" = some d' ∧ d'.status = "provisioned" ∧
      d'.config = some cfgT.config_text ∧ cfgT.config_text ≠ "" :=
  C7_onboarding_state_machine.2.2 invAssigned "aa:bb" topoT cfgT invT rfl

/-- C8 counterexample: re-discovering an already-assigned MAC resets
its status from `assigned` (rank 1) back to `discovered` (rank 0) — an
operation sequence under which an entry's status moves backwards. -/
theorem C8_forward_only_counterexample :
    (∃ d, pyLookup invAssigned "aa:bb" = some d ∧ d.status = "assigned") ∧
    (∃ d, pyLookup (discover_device invAssigned "aa:bb" "10.0.0.9").2 "aa:bb"
        = some d ∧ d.status = "discovered") ∧
    statusRank "assigned" = 1 ∧ statusRank "discovered" = 0 := by
  decide

/-- C8 (amended): the forward-only progression holds for
`provision_device` unconditionally and for `assign_role` on any entry
not already `provisioned`, and `discover_device` of a MAC not yet in
the inventory leaves every existing entry's status untouched; but
re-running `discover_device` on a known MAC resets it to `discovered`
and `assign_role` moves a `provisioned` entry back to `assigned` (see
the counterexample), so the unrestricted claim fails. -/
theorem C8_forward_only_amended :
    (∀ (inv : Inventory) mac topology cfg inv',
       provision_device inv mac topology = .ok (cfg, inv') →
       ∀ m d, pyLookup inv m = some d →
         ∃ d', pyLookup inv' m = some d' ∧
           statusRank d.status ≤ statusRank d'.status) ∧
    (∀ (inv : Inventory) mac role rack_id position d0 inv',
       assign_role inv mac role rack_id position = .ok (d0, inv') →
       (∀ d, pyLookup inv mac = some d → d.status ≠ "provisioned") →
       ∀ m d, pyLookup inv m = some d →
         ∃ d', pyLookup inv' m = some d' ∧
           statusRank d.status ≤ statusRank d'.status) ∧
    (∀ (inv : Inventory) mac ip,
       pyLookup inv mac = none →
       ∀ m d, pyLookup inv m = some d →
         ∃ d', pyLookup (discover_device inv mac ip).2 m = some d' ∧
           statusRank d.status ≤ statusRank d'.status) := by
  refine ⟨?_, ?_, ?_⟩
  · intro inv mac topology cfg inv' hok m d hm
    unfold provision_device at hok
    cases hl : pyLookup inv mac with
    | none => simp only [hl] at hok; cases hok
    | some device =>
        simp only [hl] at hok
        by_cases hst : device.status ≠ "assigned"
        · rw [if_pos hst] at hok; cases hok
        · rw [if_neg hst] at hok
          cases hh : device.hostname with
          | none => simp only [hh] at hok; cases hok
          | some hostname =>
              simp only [hh] at hok
              cases hsw : pyLookup topology.switches hostname with
              | none => simp only [hsw] at hok; cases hok
              | some sd =>
                  simp only [hsw] at hok
                  simp only [Except.ok.injEq, Prod.mk.injEq] at hok
                  obtain ⟨-, hinv⟩ := hok
                  subst hinv
                  by_cases hmm : m = mac
                  · subst hmm
                    refine ⟨_, pyLookup_dictSet_self _ _ _, ?_⟩
                    exact statusRank_le_two d.status
                  · exact ⟨d, by rw [pyLookup_dictSet_ne _ _ _ _ hmm]; exact hm,
                      le_refl _⟩
  · intro inv mac role rack_id position d0 inv' hok hnp m d hm
    unfold assign_role at hok
    cases hl : pyLookup inv mac with
    | none => simp only [hl] at hok; cases hok
    | some device =>
        simp only [hl] at hok
        simp only [Except.ok.injEq, Prod.mk.injEq] at hok
        obtain ⟨-, hinv⟩ := hok
        subst hinv
        by_cases hmm : m = mac
        · subst hmm
          refine ⟨_, pyLookup_dictSet_self _ _ _, ?_⟩
          have hd : d = device := by
            rw [hm] at hl
            exact Option.some.inj hl
          subst hd
          exact statusRank_le_one_of_ne d.status (hnp d hm)
        · exact ⟨d, by rw [pyLookup_dictSet_ne _ _ _ _ hmm]; exact hm,
            le_refl _⟩
  · intro inv mac ip hfresh m d hm
    have hmm : m ≠ mac := by
      intro h
      rw [h, hfresh] at hm
      cases hm
    refine ⟨d, ?_, le_refl _⟩
    show pyLookup (dictSet inv mac _) m = some d
    rw [pyLookup_dictSet_ne _ _ _ _ hmm]
    exact hm

/-- Witness for C8 (amended): discovering a fresh MAC leaves the
assigned entry's rank unchanged. -/
theorem C8_forward_only_witness :
    ∃ d', pyLookup (discover_device invAssigned "cc:dd" "10.0.0.10").2
        "aa:bb" = some d' ∧
      statusRank
        ({ mac_address := "aa:bb", ip_address := "10.0.0.9",
           status := "assigned", model := "generic-switch",
           serial := "SN-aabb", role := some "leaf", rack_id := some "r1",
           position := some 1, hostname := some "leaf1" } : Device).status
        ≤ statusRank d'.status :=
  C8_forward_only_amended.2.2 invAssigned "cc:dd" "10.0.0.10" (by decide)
    "aa:bb" _ (by decide)

end ControlPlane
